import Mathlib

/-!
# Verification of the blog-app-backend-express post CRUD API

Shallow embedding of the four source files:

* `src/lib/utils/validation.ts` — the zod `postSchema` validator;
* `src/lib/database/models/Post.ts` — the mongoose `PostSchema` document
  model (`createdAt` defaulted by the store when absent from the saved
  document);
* `src/app/api/posts/route.ts` — collection handlers `GET` (list) and
  `POST` (create);
* `src/app/api/posts/[id]/route.ts` — single-resource handlers `GET`,
  `PUT`, `DELETE`.

External library behaviour that the repository merely calls —
`mongoose.Types.ObjectId.isValid` and zod's `.url()` refinement — is
parameterised as boolean predicates in `Env`, together with the store's
clock (`now`, the value `Date.now` gives the `createdAt` default) and the
identifier the store assigns to a newly saved document (`newId`).  The
document store is a list of posts; each handler returns the HTTP response,
the resulting store, and the list of database events it performed, in
order, so that claims about "no database access" are statements about
that event trace.
-/

namespace BlogApi

/-- A persisted post document (mongoose `PostSchema`: author, title,
description, imageUrl required strings; createdAt defaulted by the store).
`id` is the `_id` the store assigned. Timestamps are carried as strings,
as they appear in JSON. -/
structure Post where
  id : String
  author : String
  title : String
  description : String
  imageUrl : String
  createdAt : String
deriving DecidableEq, Repr

/-- The document store: the `Post` collection. -/
abbrev Store := List Post

/-- A parsed JSON request body, as far as `postSchema` inspects it: each
of the five declared fields either present (as a string) or absent.
Unknown extra keys are stripped by zod and never reach the handlers, so
they are not modelled. -/
structure Body where
  author : Option String
  title : Option String
  description : Option String
  imageUrl : Option String
  createdAt : Option String
deriving DecidableEq, Repr

/-- Environment: the two library predicates the handlers call, plus the
store's clock and the fresh identifier it assigns on save.
`isValidObjectId` embeds `mongoose.Types.ObjectId.isValid`; `isValidUrl`
embeds zod's `.url()` check. -/
structure Env where
  isValidObjectId : String → Bool
  isValidUrl : String → Bool
  now : String
  newId : String

/-- One zod validation issue as the POST handler serialises it:
`{ field: issue.path[0], message: issue.message }`. -/
structure Issue where
  field : String
  message : String
deriving DecidableEq, Repr

/-- The validated data produced by a successful `postSchema.safeParse`:
all five fields present and constraint-satisfying. -/
structure PostData where
  author : String
  title : String
  description : String
  imageUrl : String
  createdAt : String
deriving DecidableEq, Repr

/-- Issues for `author: z.string().min(1)`. -/
def checkAuthor (body : Body) : List Issue :=
  match body.author with
  | none => [⟨"author", "Required"⟩]
  | some s =>
    if s.length < 1 then [⟨"author", "String must contain at least 1 character(s)"⟩] else []

/-- Issues for `title: z.string().min(1)`. -/
def checkTitle (body : Body) : List Issue :=
  match body.title with
  | none => [⟨"title", "Required"⟩]
  | some s =>
    if s.length < 1 then [⟨"title", "String must contain at least 1 character(s)"⟩] else []

/-- Issues for `description: z.string().min(1)`. -/
def checkDescription (body : Body) : List Issue :=
  match body.description with
  | none => [⟨"description", "Required"⟩]
  | some s =>
    if s.length < 1 then [⟨"description", "String must contain at least 1 character(s)"⟩] else []

/-- Issues for `imageUrl: z.string().url()`. -/
def checkImageUrl (env : Env) (body : Body) : List Issue :=
  match body.imageUrl with
  | none => [⟨"imageUrl", "Required"⟩]
  | some s => if env.isValidUrl s then [] else [⟨"imageUrl", "Invalid url"⟩]

/-- Issues for `createdAt: z.string()` (any string accepted, but the
field is required). -/
def checkCreatedAt (body : Body) : List Issue :=
  match body.createdAt with
  | none => [⟨"createdAt", "Required"⟩]
  | some _ => []

/-- All issues `postSchema.safeParse` reports on a body, in field order. -/
def parseIssues (env : Env) (body : Body) : List Issue :=
  checkAuthor body ++ checkTitle body ++ checkDescription body ++
    checkImageUrl env body ++ checkCreatedAt body

/-- Result of `postSchema.safeParse`. -/
inductive ParseResult where
  | ok (data : PostData)
  | issues (errs : List Issue)
deriving DecidableEq, Repr

/-- `postSchema.safeParse` (src/lib/utils/validation.ts lines 3–9):
succeeds exactly when no field raises an issue, returning the five
validated fields. -/
def safeParse (env : Env) (body : Body) : ParseResult :=
  match body.author, body.title, body.description, body.imageUrl, body.createdAt with
  | some a, some t, some d, some u, some c =>
    if parseIssues env body = [] then .ok ⟨a, t, d, u, c⟩
    else .issues (parseIssues env body)
  | _, _, _, _, _ => .issues (parseIssues env body)

/-- A database event performed by a handler, in order of occurrence. -/
inductive Event where
  | connect
  | find
  | findById (id : String)
  | save (p : Post)
  | findByIdAndUpdate (id : String) (data : PostData)
  | findByIdAndDelete (id : String)
deriving DecidableEq, Repr

/-- Whether an event is a document operation (anything other than the
connection acquisition `connectToDB`). -/
def Event.isDocOp : Event → Bool
  | .connect => false
  | _ => true

/-- The JSON payload of a response, by shape as the handlers build it. -/
inductive RespBody where
  /-- A bare JSON string, e.g. `"Post has been created"`. -/
  | msg (s : String)
  /-- `{ error: "..." }`. -/
  | errMsg (s : String)
  /-- `{ errors: [{field, message}, ...] }` (POST validation failure). -/
  | fieldErrors (errs : List Issue)
  /-- `{ error: [zod issues] }` (PUT validation failure). -/
  | zodErrors (errs : List Issue)
  /-- A post document. -/
  | post (p : Post)
  /-- `{ message: ..., post: ... }` (PUT success). -/
  | postMsg (s : String) (p : Post)
  /-- `{ message: ..., deletedPost: ... }` (DELETE success). -/
  | deleted (s : String) (p : Post)
  /-- An array of posts. -/
  | posts (ps : List Post)
deriving DecidableEq, Repr

/-- An HTTP response: status code and JSON payload. -/
structure Response where
  status : Nat
  body : RespBody
deriving DecidableEq, Repr

/-- Full outcome of one handler invocation. -/
structure HResult where
  resp : Response
  db : Store
  events : List Event
deriving Repr

/-- `Post.findById(id)`: first document whose `_id` matches. -/
def findById (db : Store) (id : String) : Option Post :=
  db.find? (fun p => p.id == id)

/-- Apply an update payload to a document (the `_id` is immutable).
Because `PostSchema` sets `timestamps: true` (Post.ts line 12),
mongoose's timestamp middleware deletes `createdAt` from every update
object before `findOneAndUpdate` runs, so only `author`, `title`,
`description` and `imageUrl` are overwritten and the stored document
keeps its original `createdAt`. -/
def updatePost (p : Post) (d : PostData) : Post :=
  { p with author := d.author, title := d.title, description := d.description,
           imageUrl := d.imageUrl }

/-- `Post.findByIdAndUpdate(id, data, {new: true})`: sets the update
data's fields — minus `createdAt`, which the `timestamps: true`
middleware strips from the update — on the single document with
matching `_id` (identifiers are unique keys), returning the updated
document, or `none` when no document matches. -/
def findByIdAndUpdate (db : Store) (id : String) (d : PostData) : Option Post × Store :=
  match db with
  | [] => (none, [])
  | p :: rest =>
    if p.id == id then (some (updatePost p d), updatePost p d :: rest)
    else
      let r := findByIdAndUpdate rest id d
      (r.1, p :: r.2)

/-- `Post.findByIdAndDelete(id)`: removes the single document with
matching `_id`, returning it, or `none` when no document matches. -/
def findByIdAndDelete (db : Store) (id : String) : Option Post × Store :=
  match db with
  | [] => (none, [])
  | p :: rest =>
    if p.id == id then (some p, rest)
    else
      let r := findByIdAndDelete rest id
      (r.1, p :: r.2)

/-- `GET /api/posts` (src/app/api/posts/route.ts lines 39–54): connect,
fetch all posts, return them with status 200. -/
def listPosts (db : Store) : HResult :=
  ⟨⟨200, .posts db⟩, db, [.connect, .find]⟩

/-- `POST /api/posts` (src/app/api/posts/route.ts lines 117–164).
`reqBody = none` models a request whose body `req.json()` fails to parse:
the thrown error is not a `ZodError`, so the catch branch answers 500.
Otherwise the body is validated with `postSchema.safeParse`; on failure
the issues are mapped to `{field, message}` entries and returned with
400.  On success the handler destructures only `author`, `title`,
`description`, `imageUrl` (line 135) — the validated `createdAt` is
discarded — connects, and saves a new document, whose `createdAt` the
store therefore defaults to the current time (`PostSchema`'s
`default: Date.now`).  Returns 201 with a bare acknowledgement. -/
def createPost (env : Env) (db : Store) (reqBody : Option Body) : HResult :=
  match reqBody with
  | none => ⟨⟨500, .errMsg "Failed to create Post"⟩, db, []⟩
  | some body =>
    match safeParse env body with
    | .issues errs => ⟨⟨400, .fieldErrors errs⟩, db, []⟩
    | .ok data =>
      let newPost : Post :=
        ⟨env.newId, data.author, data.title, data.description, data.imageUrl, env.now⟩
      ⟨⟨201, .msg "Post has been created"⟩, db ++ [newPost], [.connect, .save newPost]⟩

/-- `GET /api/posts/{id}` (src/app/api/posts/[id]/route.ts lines 51–75):
connects FIRST (line 54), then rejects a malformed ObjectId with 400
(lines 57–59), then looks the post up, answering 404 when absent and 200
with the post when found. -/
def getPost (env : Env) (db : Store) (id : String) : HResult :=
  if env.isValidObjectId id then
    match findById db id with
    | none => ⟨⟨404, .msg "Post not found"⟩, db, [.connect, .findById id]⟩
    | some p => ⟨⟨200, .post p⟩, db, [.connect, .findById id]⟩
  else ⟨⟨400, .errMsg "Invalid ID format"⟩, db, [.connect]⟩

/-- `PUT /api/posts/{id}` (src/app/api/posts/[id]/route.ts lines
127–171): rejects a malformed ObjectId with 400 BEFORE entering the try
block, so before the body is even read (lines 131–133).  Then the body
is parsed — an unparseable body (`reqBody = none`) throws and the catch
answers 500 — and validated, a failure answering 400 with the zod
issues.  Only then does it connect and run `findByIdAndUpdate` with
`{new: true}`, answering 404 when no document matches and otherwise 200
with the updated post. -/
def putPost (env : Env) (db : Store) (id : String) (reqBody : Option Body) : HResult :=
  if env.isValidObjectId id then
    match reqBody with
    | none => ⟨⟨500, .errMsg "Internal server error"⟩, db, []⟩
    | some body =>
      match safeParse env body with
      | .issues errs => ⟨⟨400, .zodErrors errs⟩, db, []⟩
      | .ok data =>
        let r := findByIdAndUpdate db id data
        match r.1 with
        | none => ⟨⟨404, .errMsg "Post not found"⟩, r.2, [.connect, .findByIdAndUpdate id data]⟩
        | some p =>
          ⟨⟨200, .postMsg "Post updated successfully" p⟩, r.2,
            [.connect, .findByIdAndUpdate id data]⟩
  else ⟨⟨400, .errMsg "Invalid ID format"⟩, db, []⟩

/-- `DELETE /api/posts/{id}` (src/app/api/posts/[id]/route.ts lines
223–258): an empty identifier (falsy `id`) answers 400 "ID is required"
with no database access (lines 226–228); otherwise the handler connects
FIRST (line 231), then rejects a malformed ObjectId with 400 (lines
234–236), then runs `findByIdAndDelete`, answering 404 when no document
matches and 200 with the deleted post otherwise. -/
def deletePost (env : Env) (db : Store) (id : String) : HResult :=
  if id == "" then ⟨⟨400, .errMsg "ID is required"⟩, db, []⟩
  else
    if env.isValidObjectId id then
      let r := findByIdAndDelete db id
      match r.1 with
      | none => ⟨⟨404, .errMsg "Post not found"⟩, db, [.connect, .findByIdAndDelete id]⟩
      | some p =>
        ⟨⟨200, .deleted "Post deleted successfully" p⟩, r.2,
          [.connect, .findByIdAndDelete id]⟩
    else ⟨⟨400, .errMsg "Invalid ID format"⟩, db, [.connect]⟩

/-- One API request, for reasoning about request sequences. -/
inductive Req where
  | list
  | create (body : Option Body)
  | fetch (id : String)
  | update (id : String) (body : Option Body)
  | remove (id : String)
deriving Repr

/-- Dispatch one request against the store. -/
def step (env : Env) (db : Store) : Req → HResult
  | .list => listPosts db
  | .create body => createPost env db body
  | .fetch id => getPost env db id
  | .update id body => putPost env db id body
  | .remove id => deletePost env db id

/-- Run a sequence of requests.  The two library predicates are fixed
(they are code of the zod and mongoose libraries), while the clock value
and the freshly assigned identifier vary per request: each element
carries the `now` and `newId` in effect for that request. -/
def runReqs (ov uv : String → Bool) (steps : List (String × String × Req)) (db : Store) :
    Store :=
  match steps with
  | [] => db
  | (now, newId, req) :: rest => runReqs ov uv rest (step ⟨ov, uv, now, newId⟩ db req).db

/-- The validator's constraints on a persisted document, with the URL
predicate `uv`: non-empty author, title, description, a URL-shaped
imageUrl.  (`createdAt` is a string by construction of `Post`.) -/
def validPost (uv : String → Bool) (p : Post) : Prop :=
  1 ≤ p.author.length ∧ 1 ≤ p.title.length ∧ 1 ≤ p.description.length ∧
    uv p.imageUrl = true

/-! Concrete fixtures used to evaluate the theorems on explicit inputs. -/

/-- A concrete ObjectId validity predicate: 24-character identifiers
(the hex-content check is irrelevant to every claim). -/
def oidLen (s : String) : Bool := s.length == 24

/-- A concrete URL predicate accepting everything. -/
def anyUrl (_ : String) : Bool := true

/-- A concrete environment for evaluation. -/
def demoEnv : Env := ⟨oidLen, anyUrl, "NOW", "aaaaaaaaaaaaaaaaaaaaaaaa"⟩

/-- A body passing full validation, with a client-supplied `createdAt`. -/
def goodBody : Body := ⟨some "ann", some "t", some "d", some "u", some "2020-01-01"⟩

/-- A body failing validation: `author` is missing. -/
def badBody : Body := ⟨none, some "t", some "d", some "u", some "2020-01-01"⟩

/-- A stored post fixture. -/
def basePost : Post :=
  ⟨"cccccccccccccccccccccccc", "a0", "t0", "d0", "u0", "2019-01-01"⟩

end BlogApi

namespace BlogApi

/-! ## Helper lemmas -/

theorem safeParse_eq_issues (env : Env) (body : Body)
    (h : parseIssues env body ≠ []) :
    safeParse env body = .issues (parseIssues env body) := by
  obtain ⟨a, t, d, u, c⟩ := body
  cases a <;> cases t <;> cases d <;> cases u <;> cases c <;>
    (simp [safeParse]; try simp_all)

theorem createPost_of_issue (env : Env) (db : Store) (body : Body) (e : Issue)
    (he : e ∈ parseIssues env body) :
    createPost env db (some body) =
      ⟨⟨400, .fieldErrors (parseIssues env body)⟩, db, []⟩ := by
  have h := safeParse_eq_issues env body (List.ne_nil_of_mem he)
  simp [createPost, h]

theorem safeParse_ok_valid (env : Env) (body : Body) (data : PostData)
    (h : safeParse env body = .ok data) :
    1 ≤ data.author.length ∧ 1 ≤ data.title.length ∧
      1 ≤ data.description.length ∧ env.isValidUrl data.imageUrl = true := by
  obtain ⟨a, t, d, u, c⟩ := body
  by_cases hpi : parseIssues env ⟨a, t, d, u, c⟩ = []
  · cases a <;> cases t <;> cases d <;> cases u <;> cases c <;>
      simp [safeParse, hpi] at h
    subst h
    simp [parseIssues, checkAuthor, checkTitle, checkDescription,
      checkImageUrl, checkCreatedAt] at hpi
    obtain ⟨h1, h2, h3, h4⟩ := hpi
    exact ⟨by simp only [Nat.one_le_iff_ne_zero]; simpa using h1,
      by simp only [Nat.one_le_iff_ne_zero]; simpa using h2,
      by simp only [Nat.one_le_iff_ne_zero]; simpa using h3, h4⟩
  · cases a <;> cases t <;> cases d <;> cases u <;> cases c <;>
      simp [safeParse, hpi] at h

theorem findById_cons (q : Post) (rest : Store) (id : String) :
    findById (q :: rest) id = if q.id == id then some q else findById rest id := by
  by_cases hq : (q.id == id) = true <;> simp [findById, List.find?_cons, hq]

theorem findByIdAndUpdate_fst (db : Store) (id : String) (d : PostData) :
    (findByIdAndUpdate db id d).1 =
      (findById db id).map (fun p => updatePost p d) := by
  induction db with
  | nil => simp [findByIdAndUpdate, findById]
  | cons q rest ih =>
    by_cases hq : (q.id == id) = true <;>
      simp [findByIdAndUpdate, findById_cons, hq, ih]

theorem findById_findByIdAndUpdate (db : Store) (id : String) (d : PostData) :
    findById (findByIdAndUpdate db id d).2 id =
      (findById db id).map (fun p => updatePost p d) := by
  induction db with
  | nil => simp [findByIdAndUpdate, findById]
  | cons q rest ih =>
    by_cases hq : (q.id == id) = true
    · simp [findByIdAndUpdate, hq, findById_cons, updatePost]
    · simp [findByIdAndUpdate, hq, findById_cons, ih]

theorem findByIdAndUpdate_mem (db : Store) (id : String) (d : PostData)
    (p : Post) (h : p ∈ (findByIdAndUpdate db id d).2) :
    p ∈ db ∨ ∃ q ∈ db, p = updatePost q d := by
  induction db with
  | nil => simp [findByIdAndUpdate] at h
  | cons q rest ih =>
    by_cases hq : q.id == id
    · simp [findByIdAndUpdate, hq] at h
      rcases h with h | h
      · exact Or.inr ⟨q, by simp, h⟩
      · exact Or.inl (by simp [h])
    · simp [findByIdAndUpdate, hq] at h
      rcases h with h | h
      · exact Or.inl (by simp [h])
      · rcases ih h with h' | ⟨r, hr, hp⟩
        · exact Or.inl (by simp [h'])
        · exact Or.inr ⟨r, by simp [hr], hp⟩

theorem findByIdAndDelete_fst (db : Store) (id : String) :
    (findByIdAndDelete db id).1 = findById db id := by
  induction db with
  | nil => simp [findByIdAndDelete, findById]
  | cons q rest ih =>
    by_cases hq : q.id == id
    · simp [findByIdAndDelete, findById, hq]
    · simp [findByIdAndDelete, findById, hq, ih]

theorem findByIdAndDelete_mem (db : Store) (id : String) (p : Post)
    (h : p ∈ (findByIdAndDelete db id).2) : p ∈ db := by
  induction db with
  | nil => simp [findByIdAndDelete] at h
  | cons q rest ih =>
    by_cases hq : q.id == id
    · simp [findByIdAndDelete, hq] at h
      exact by simp [h]
    · simp [findByIdAndDelete, hq] at h
      rcases h with h | h
      · exact by simp [h]
      · exact List.mem_cons_of_mem _ (ih h)

/-! ## Claim theorems -/

/-- C10: a creation request whose body is not parseable as JSON is
answered with status 500 and the generic creation-failure message, not a
400 validation error, and no document is persisted (the store is
unchanged and no database event occurs). -/
theorem create_unparseable_500_noWrite (env : Env) (db : Store) :
    createPost env db none = ⟨⟨500, .errMsg "Failed to create Post"⟩, db, []⟩ :=
  rfl

/-- C9: an update request whose path identifier is not a well-formed
ObjectId is answered 400 with the invalid-ID-format error regardless of
the request body — including an unparseable body (`none`) — with no
database access and the store unchanged: the identifier check precedes
body parsing. -/
theorem put_malformedId_400_regardless_of_body (env : Env) (db : Store)
    (id : String) (body : Option Body) (h : env.isValidObjectId id = false) :
    putPost env db id body = ⟨⟨400, .errMsg "Invalid ID format"⟩, db, []⟩ := by
  simp [putPost, h]

/-- Witness for C9 at a concrete malformed identifier and unparseable
body. -/
theorem put_malformedId_400_regardless_of_body_witness :
    putPost demoEnv [] "xyz" none = ⟨⟨400, .errMsg "Invalid ID format"⟩, [], []⟩ :=
  put_malformedId_400_regardless_of_body demoEnv [] "xyz" none (by decide)

/-- C1 counterexample: the claim says a malformed identifier yields 400
before any database access, "neither a connection acquisition nor a
document operation".  But the fetch handler calls `connectToDB()` (line
54) before the identifier check (line 57): at identifier "xyz" it
answers 400 having already performed a connection acquisition. -/
theorem malformedId_counterexample :
    demoEnv.isValidObjectId "xyz" = false ∧
    (getPost demoEnv [] "xyz").resp.status = 400 ∧
    (getPost demoEnv [] "xyz").events = [Event.connect] ∧
    (getPost demoEnv [] "xyz").events ≠ [] := by
  refine ⟨by decide, rfl, rfl, by decide⟩

/-- C1 amended: a malformed identifier yields 400 before any DOCUMENT
operation in all three handlers and the store is unchanged; the update
handler performs no database access at all (not even a connection),
while the fetch handler, and the delete handler on a non-empty
identifier, acquire a connection before rejecting. -/
theorem malformedId_400_noDocOp (env : Env) (db : Store) (id : String)
    (body : Option Body) (h : env.isValidObjectId id = false) :
    ((getPost env db id).resp.status = 400 ∧
      (∀ e ∈ (getPost env db id).events, e.isDocOp = false) ∧
      (getPost env db id).db = db) ∧
    (putPost env db id body = ⟨⟨400, .errMsg "Invalid ID format"⟩, db, []⟩) ∧
    ((deletePost env db id).resp.status = 400 ∧
      (∀ e ∈ (deletePost env db id).events, e.isDocOp = false) ∧
      (deletePost env db id).db = db) := by
  have hget : getPost env db id = ⟨⟨400, .errMsg "Invalid ID format"⟩, db, [.connect]⟩ := by
    simp [getPost, h]
  have hput : putPost env db id body = ⟨⟨400, .errMsg "Invalid ID format"⟩, db, []⟩ := by
    simp [putPost, h]
  have hdel : (deletePost env db id).resp.status = 400 ∧
      (∀ e ∈ (deletePost env db id).events, e.isDocOp = false) ∧
      (deletePost env db id).db = db := by
    by_cases h0 : id = ""
    · simp [deletePost, h0, Event.isDocOp]
    · simp [deletePost, h0, h, Event.isDocOp]
  refine ⟨⟨?_, ?_, ?_⟩, hput, hdel⟩ <;> rw [hget]
  · intro e he
    simp at he
    simp [he, Event.isDocOp]

/-- Witness for C1's amended theorem at a concrete malformed
identifier. -/
theorem malformedId_400_noDocOp_witness :
    (deletePost demoEnv [] "xyz").resp.status = 400 :=
  (malformedId_400_noDocOp demoEnv [] "xyz" none (by decide)).2.2.1

/-- C3: an update request whose payload fails validation is answered 400
and the store is left untouched — no database event at all occurs, so in
particular no document operation is performed on the post named by the
path identifier (whether or not that identifier is well-formed). -/
theorem put_invalidPayload_400_storeUnchanged (env : Env) (db : Store)
    (id : String) (body : Body) (errs : List Issue)
    (h : safeParse env body = .issues errs) :
    (putPost env db id (some body)).resp.status = 400 ∧
    (putPost env db id (some body)).db = db ∧
    (putPost env db id (some body)).events = [] := by
  by_cases hv : env.isValidObjectId id <;> simp [putPost, hv, h]

/-- Witness for C3 at a concrete invalid payload (missing author). -/
theorem put_invalidPayload_400_storeUnchanged_witness :
    (putPost demoEnv [basePost] "cccccccccccccccccccccccc" (some badBody)).resp.status = 400 :=
  (put_invalidPayload_400_storeUnchanged demoEnv [basePost]
    "cccccccccccccccccccccccc" badBody [⟨"author", "Required"⟩] (by decide)).1

/-- C2 counterexample: the claim says the persisted post's `createdAt` is
the client-supplied value when present.  But the POST handler
destructures only `author`, `title`, `description`, `imageUrl` from the
validated data (route.ts line 135) and saves a document without
`createdAt`, so the store default (current time, here `"NOW"`) applies:
with a client `createdAt` of `"2020-01-01"`, creation succeeds and the
persisted `createdAt` is `"NOW"`, not the client value. -/
theorem createdAt_client_value_counterexample :
    goodBody.createdAt = some "2020-01-01" ∧
    (createPost demoEnv [] (some goodBody)).resp.status = 201 ∧
    (createPost demoEnv [] (some goodBody)).db =
      [⟨"aaaaaaaaaaaaaaaaaaaaaaaa", "ann", "t", "d", "u", "NOW"⟩] ∧
    ("NOW" : String) ≠ "2020-01-01" :=
  ⟨rfl, by decide, by decide, by decide⟩

/-- C2 amended: the persisted post's `createdAt` is always the store's
current-time default, with the client-supplied value (required by the
validator but discarded by the handler) never persisted; and a creation
input omitting `createdAt` is rejected with 400 rather than persisted
with the default. -/
theorem created_createdAt_is_store_default (env : Env) (db : Store) (body : Body) :
    (∀ data, safeParse env body = .ok data →
      (createPost env db (some body)).db =
        db ++ [⟨env.newId, data.author, data.title, data.description,
          data.imageUrl, env.now⟩]) ∧
    (body.createdAt = none → (createPost env db (some body)).resp.status = 400) := by
  constructor
  · intro data h
    simp [createPost, h]
  · intro hc
    have hmem : (⟨"createdAt", "Required"⟩ : Issue) ∈ parseIssues env body := by
      simp [parseIssues, checkCreatedAt, hc]
    rw [createPost_of_issue env db body _ hmem]

/-- Witness for C2's amended theorem: a concrete valid creation whose
persisted `createdAt` is the environment's clock value. -/
theorem created_createdAt_is_store_default_witness :
    (createPost demoEnv [] (some goodBody)).db =
      [⟨demoEnv.newId, "ann", "t", "d", "u", demoEnv.now⟩] :=
  (created_createdAt_is_store_default demoEnv [] goodBody).1
    ⟨"ann", "t", "d", "u", "2020-01-01"⟩ (by decide)

/-! ## Store-shape lemmas for the persistence invariant -/

theorem getPost_db (env : Env) (db : Store) (id : String) :
    (getPost env db id).db = db := by
  unfold getPost
  split
  · split <;> rfl
  · rfl

theorem putPost_db_ok (env : Env) (db : Store) (id : String) (b : Body)
    (data : PostData) (hv : env.isValidObjectId id = true)
    (hs : safeParse env b = .ok data) :
    (putPost env db id (some b)).db = (findByIdAndUpdate db id data).2 := by
  simp only [putPost, hv, if_true, hs]
  cases hr : (findByIdAndUpdate db id data).1 <;> simp [hr]

theorem deletePost_db_mem (env : Env) (db : Store) (id : String) (p : Post)
    (hp : p ∈ (deletePost env db id).db) : p ∈ db := by
  by_cases h0 : id = ""
  · simpa [deletePost, h0] using hp
  · by_cases hv : env.isValidObjectId id = true
    · simp only [deletePost, h0, hv] at hp
      cases hr : (findByIdAndDelete db id).1 <;> simp [hr, h0] at hp
      · exact hp
      · exact findByIdAndDelete_mem db id p hp
    · simpa [deletePost, h0, hv] using hp

theorem step_preserves_valid (ov uv : String → Bool) (now newId : String)
    (req : Req) (db : Store) (hdb : ∀ p ∈ db, validPost uv p) :
    ∀ p ∈ (step ⟨ov, uv, now, newId⟩ db req).db, validPost uv p := by
  cases req with
  | list => simpa [step, listPosts] using hdb
  | fetch id => simpa [step, getPost_db] using hdb
  | create body =>
    cases body with
    | none => simpa [step, createPost] using hdb
    | some b =>
      cases hs : safeParse ⟨ov, uv, now, newId⟩ b with
      | issues errs => simpa [step, createPost, hs] using hdb
      | ok data =>
        intro p hp
        simp [step, createPost, hs] at hp
        rcases hp with hp | hp
        · exact hdb p hp
        · subst hp
          have hc := safeParse_ok_valid _ _ _ hs
          exact ⟨hc.1, hc.2.1, hc.2.2.1, hc.2.2.2⟩
  | update id body =>
    by_cases hv : ov id = true
    · cases body with
      | none => simpa [step, putPost, hv] using hdb
      | some b =>
        cases hs : safeParse ⟨ov, uv, now, newId⟩ b with
        | issues errs => simpa [step, putPost, hv, hs] using hdb
        | ok data =>
          intro p hp
          rw [show (step ⟨ov, uv, now, newId⟩ db (.update id (some b))).db =
              (putPost ⟨ov, uv, now, newId⟩ db id (some b)).db from rfl,
            putPost_db_ok _ _ _ _ _ hv hs] at hp
          rcases findByIdAndUpdate_mem db id data p hp with h' | ⟨q, _, hq⟩
          · exact hdb p h'
          · subst hq
            have hc := safeParse_ok_valid _ _ _ hs
            exact ⟨hc.1, hc.2.1, hc.2.2.1, hc.2.2.2⟩
    · simpa [step, putPost, hv] using hdb
  | remove id =>
    intro p hp
    exact hdb p (deletePost_db_mem _ db id p hp)

theorem runReqs_preserves_valid (ov uv : String → Bool)
    (steps : List (String × String × Req)) (db : Store)
    (hdb : ∀ p ∈ db, validPost uv p) :
    ∀ p ∈ runReqs ov uv steps db, validPost uv p := by
  induction steps generalizing db with
  | nil => simpa [runReqs] using hdb
  | cons s rest ih =>
    obtain ⟨now, newId, req⟩ := s
    exact ih _ (step_preserves_valid ov uv now newId req db hdb)

/-- C4: starting from an empty store, after any sequence of API requests
(with the zod URL predicate `uv` and mongoose identifier predicate `ov`
fixed and the clock and assigned identifiers varying per request) every
post in the store satisfies the validator's constraints: non-empty
author, title and description, and a `uv`-valid imageUrl (`createdAt` is
a string by the type of `Post`).  This holds because each create and
each update runs `postSchema.safeParse` on the full payload before any
write. -/
theorem persisted_posts_satisfy_validator (ov uv : String → Bool)
    (steps : List (String × String × Req)) (p : Post)
    (hp : p ∈ runReqs ov uv steps []) : validPost uv p :=
  runReqs_preserves_valid ov uv steps [] (by simp) p hp

/-- Witness for C4: the post persisted by one concrete valid creation
satisfies the validator's constraints. -/
theorem persisted_posts_satisfy_validator_witness :
    validPost anyUrl ⟨"aaaaaaaaaaaaaaaaaaaaaaaa", "ann", "t", "d", "u", "NOW"⟩ :=
  persisted_posts_satisfy_validator oidLen anyUrl
    [("NOW", "aaaaaaaaaaaaaaaaaaaaaaaa", .create (some goodBody))] _ (by decide)

/-- C5: a creation request missing any of the five required fields, or
whose `imageUrl` is present but not URL-valid, is answered 400 with an
error list containing an entry whose `field` names the offending
field. -/
theorem create_missing_or_badUrl_400_namesField (env : Env) (db : Store) (body : Body) :
    (body.author = none → (createPost env db (some body)).resp.status = 400 ∧
      ∃ errs, (createPost env db (some body)).resp.body = .fieldErrors errs ∧
        ∃ e ∈ errs, e.field = "author") ∧
    (body.title = none → (createPost env db (some body)).resp.status = 400 ∧
      ∃ errs, (createPost env db (some body)).resp.body = .fieldErrors errs ∧
        ∃ e ∈ errs, e.field = "title") ∧
    (body.description = none → (createPost env db (some body)).resp.status = 400 ∧
      ∃ errs, (createPost env db (some body)).resp.body = .fieldErrors errs ∧
        ∃ e ∈ errs, e.field = "description") ∧
    (body.imageUrl = none → (createPost env db (some body)).resp.status = 400 ∧
      ∃ errs, (createPost env db (some body)).resp.body = .fieldErrors errs ∧
        ∃ e ∈ errs, e.field = "imageUrl") ∧
    (body.createdAt = none → (createPost env db (some body)).resp.status = 400 ∧
      ∃ errs, (createPost env db (some body)).resp.body = .fieldErrors errs ∧
        ∃ e ∈ errs, e.field = "createdAt") ∧
    (∀ u, body.imageUrl = some u → env.isValidUrl u = false →
      (createPost env db (some body)).resp.status = 400 ∧
      ∃ errs, (createPost env db (some body)).resp.body = .fieldErrors errs ∧
        ∃ e ∈ errs, e.field = "imageUrl") := by
  have key : ∀ e : Issue, e ∈ parseIssues env body →
      (createPost env db (some body)).resp.status = 400 ∧
      ∃ errs, (createPost env db (some body)).resp.body = .fieldErrors errs ∧
        ∃ e' ∈ errs, e'.field = e.field := by
    intro e he
    rw [createPost_of_issue env db body e he]
    exact ⟨rfl, parseIssues env body, rfl, e, he, rfl⟩
  refine ⟨fun h => key ⟨"author", "Required"⟩ ?_,
    fun h => key ⟨"title", "Required"⟩ ?_,
    fun h => key ⟨"description", "Required"⟩ ?_,
    fun h => key ⟨"imageUrl", "Required"⟩ ?_,
    fun h => key ⟨"createdAt", "Required"⟩ ?_,
    fun u hu huv => key ⟨"imageUrl", "Invalid url"⟩ ?_⟩
  · simp [parseIssues, checkAuthor, h]
  · simp [parseIssues, checkTitle, h]
  · simp [parseIssues, checkDescription, h]
  · simp [parseIssues, checkImageUrl, h]
  · simp [parseIssues, checkCreatedAt, h]
  · simp [parseIssues, checkImageUrl, hu, huv]

/-- Witness for C5 at a concrete body missing its author. -/
theorem create_missing_or_badUrl_400_namesField_witness :
    (createPost demoEnv [] (some badBody)).resp.status = 400 ∧
    ∃ errs, (createPost demoEnv [] (some badBody)).resp.body = .fieldErrors errs ∧
      ∃ e ∈ errs, e.field = "author" :=
  (create_missing_or_badUrl_400_namesField demoEnv [] badBody).1 rfl

/-- C6 counterexample: the claim says every update request with a
well-formed identifier matching no stored post is answered 404, but an
update whose body fails validation is answered 400 even then: with the
24-character identifier below (well-formed for `demoEnv`), an empty
store, and a body missing its author, PUT answers 400, not 404. -/
theorem nonexistentId_404_counterexample :
    demoEnv.isValidObjectId "cccccccccccccccccccccccc" = true ∧
    findById ([] : Store) "cccccccccccccccccccccccc" = none ∧
    (putPost demoEnv [] "cccccccccccccccccccccccc" (some badBody)).resp.status = 400 ∧
    (putPost demoEnv [] "cccccccccccccccccccccccc" (some badBody)).resp.status ≠ 404 :=
  ⟨by decide, rfl, by decide, by decide⟩

/-- C6 amended: a fetch or delete request with a well-formed (hence
non-empty) identifier matching no stored post is answered 404, and so is
an update request — provided its payload passes validation (an invalid
payload is answered 400 first). -/
theorem wellformed_nonexistent_404 (env : Env) (db : Store) (id : String)
    (body : Body) (data : PostData)
    (hv : env.isValidObjectId id = true) (hne : id ≠ "")
    (hmiss : findById db id = none)
    (hbody : safeParse env body = .ok data) :
    (getPost env db id).resp.status = 404 ∧
    (putPost env db id (some body)).resp.status = 404 ∧
    (deletePost env db id).resp.status = 404 := by
  refine ⟨?_, ?_, ?_⟩
  · simp [getPost, hv, hmiss]
  · simp [putPost, hv, hbody, findByIdAndUpdate_fst, hmiss]
  · simp [deletePost, hne, hv, findByIdAndDelete_fst, hmiss]

/-- Witness for C6's amended theorem at a concrete absent identifier. -/
theorem wellformed_nonexistent_404_witness :
    (getPost demoEnv [] "dddddddddddddddddddddddd").resp.status = 404 :=
  (wellformed_nonexistent_404 demoEnv [] "dddddddddddddddddddddddd" goodBody
    ⟨"ann", "t", "d", "u", "2020-01-01"⟩ (by decide) (by decide) rfl (by decide)).1

/-- C7 counterexample: the claim says a valid update replaces all five
validated fields, `createdAt` included, and returns the post carrying
the new values.  But `PostSchema` sets `timestamps: true`, whose
middleware strips `createdAt` from the update object before
`findOneAndUpdate` runs: updating the stored post (whose `createdAt` is
`"2019-01-01"`) with a payload carrying `createdAt = "2020-01-01"`
answers 200 with a post still carrying `"2019-01-01"`. -/
theorem put_createdAt_not_replaced_counterexample :
    basePost.createdAt = "2019-01-01" ∧
    goodBody.createdAt = some "2020-01-01" ∧
    (putPost demoEnv [basePost] "cccccccccccccccccccccccc" (some goodBody)).resp.status = 200 ∧
    (putPost demoEnv [basePost] "cccccccccccccccccccccccc" (some goodBody)).resp.body =
      .postMsg "Post updated successfully"
        ⟨"cccccccccccccccccccccccc", "ann", "t", "d", "u", "2019-01-01"⟩ ∧
    ("2019-01-01" : String) ≠ "2020-01-01" :=
  ⟨rfl, rfl, by decide, by decide, by decide⟩

/-- C7 amended: an update with a well-formed identifier of an existing
post and a payload passing full validation replaces the stored post's
`author`, `title`, `description` and `imageUrl` with the payload's
values (the identifier is preserved) and answers 200 with the post
carrying the new values; `createdAt` is NOT replaced — the
`timestamps: true` middleware strips it from the update, so the post
keeps its original `createdAt`.  The post stored under that identifier
afterwards is exactly the returned post. -/
theorem put_valid_existing_updatesFields (env : Env) (db : Store)
    (id : String) (body : Body) (data : PostData) (p : Post)
    (hv : env.isValidObjectId id = true)
    (hbody : safeParse env body = .ok data)
    (hfound : findById db id = some p) :
    putPost env db id (some body) =
      ⟨⟨200, .postMsg "Post updated successfully" (updatePost p data)⟩,
        (findByIdAndUpdate db id data).2,
        [.connect, .findByIdAndUpdate id data]⟩ ∧
    findById (findByIdAndUpdate db id data).2 id = some (updatePost p data) ∧
    (updatePost p data).author = data.author ∧
    (updatePost p data).title = data.title ∧
    (updatePost p data).description = data.description ∧
    (updatePost p data).imageUrl = data.imageUrl ∧
    (updatePost p data).createdAt = p.createdAt ∧
    (updatePost p data).id = p.id := by
  have hfst : (findByIdAndUpdate db id data).1 = some (updatePost p data) := by
    rw [findByIdAndUpdate_fst, hfound]
    rfl
  refine ⟨?_, ?_, rfl, rfl, rfl, rfl, rfl, rfl⟩
  · simp [putPost, hv, hbody, hfst]
  · rw [findById_findByIdAndUpdate, hfound]
    rfl

/-- Witness for C7's amended theorem: a concrete update of an existing
stored post. -/
theorem put_valid_existing_updatesFields_witness :
    putPost demoEnv [basePost] "cccccccccccccccccccccccc" (some goodBody) =
      ⟨⟨200, .postMsg "Post updated successfully"
          (updatePost basePost ⟨"ann", "t", "d", "u", "2020-01-01"⟩)⟩,
        (findByIdAndUpdate [basePost] "cccccccccccccccccccccccc"
          ⟨"ann", "t", "d", "u", "2020-01-01"⟩).2,
        [.connect, .findByIdAndUpdate "cccccccccccccccccccccccc"
          ⟨"ann", "t", "d", "u", "2020-01-01"⟩]⟩ :=
  (put_valid_existing_updatesFields demoEnv [basePost]
    "cccccccccccccccccccccccc" goodBody ⟨"ann", "t", "d", "u", "2020-01-01"⟩
    basePost (by decide) (by decide) (by decide)).1

theorem findById_append_fresh (db : Store) (q : Post)
    (h : ∀ p ∈ db, p.id ≠ q.id) : findById (db ++ [q]) q.id = some q := by
  induction db with
  | nil => simp [findById]
  | cons p rest ih =>
    have hp : p.id ≠ q.id := h p (by simp)
    rw [List.cons_append, findById_cons]
    simp only [beq_iff_eq, hp, if_false]
    exact ih (fun r hr => h r (by simp [hr]))

/-- C8: a creation request with all required fields and a valid image
URL succeeds with 201, and a subsequent fetch by the identifier the
store assigned to the new post (well-formed, and fresh with respect to
the prior store contents) answers 200 with that post. -/
theorem create_then_fetch (env : Env) (db : Store) (body : Body) (data : PostData)
    (hbody : safeParse env body = .ok data)
    (hvid : env.isValidObjectId env.newId = true)
    (hfresh : ∀ p ∈ db, p.id ≠ env.newId) :
    (createPost env db (some body)).resp.status = 201 ∧
    getPost env (createPost env db (some body)).db env.newId =
      ⟨⟨200, .post ⟨env.newId, data.author, data.title, data.description,
          data.imageUrl, env.now⟩⟩,
        (createPost env db (some body)).db, [.connect, .findById env.newId]⟩ := by
  have hdb : (createPost env db (some body)).db =
      db ++ [⟨env.newId, data.author, data.title, data.description,
        data.imageUrl, env.now⟩] := by
    simp [createPost, hbody]
  refine ⟨by simp [createPost, hbody], ?_⟩
  rw [hdb]
  have hfind := findById_append_fresh db
    ⟨env.newId, data.author, data.title, data.description, data.imageUrl, env.now⟩
    hfresh
  simp [getPost, hvid, hfind]

/-- Witness for C8: a concrete creation on an empty store followed by a
fetch of the assigned identifier. -/
theorem create_then_fetch_witness :
    (createPost demoEnv [] (some goodBody)).resp.status = 201 :=
  (create_then_fetch demoEnv [] goodBody ⟨"ann", "t", "d", "u", "2020-01-01"⟩
    (by decide) (by decide) (by simp)).1

end BlogApi
